import Mathlib

/-!
# Verification of the alohawaii-api authorization gate and account lifecycle

This file shallowly embeds the authorization gate
(`src/middleware/apiAuth.ts:validateApiAccess`, `src/middleware.ts:middleware`),
the role helpers (`lib/api-helpers.ts:hasRole`, `helpers/admin-auth.ts`),
the domain whitelist (`lib/auth.ts:isDomainWhitelisted`,
`lib/api-helpers.ts:isEmailFromWhitelistedDomain`) and the account lifecycle
controller (the two NextAuth `signIn` callback variants in the repository and
the `users/auth` POST endpoint) and proves/refutes the frozen claims about
them.

Conventions: environment variables are `Option String` (absent = `none`);
JavaScript string falsiness (absent or empty) is modelled explicitly; the
persisted store is a list of records; `now` is an abstract timestamp passed
as a parameter.
-/

namespace Aloha

/-- The `UserRole` enum of `prisma/schema.prisma`:
`enum UserRole { PENDING READONLY USER STAFF MANAGER ADMIN }`. -/
inductive UserRole where
  | PENDING
  | READONLY
  | USER
  | STAFF
  | MANAGER
  | ADMIN
deriving DecidableEq, Repr

/-- The rank of a role in the spec's fixed total order
`Pending=0 < ReadOnly=1 < User=2 < Staff=3 < Manager=4 < Admin=5`. -/
def roleRank : UserRole → Nat
  | .PENDING => 0
  | .READONLY => 1
  | .USER => 2
  | .STAFF => 3
  | .MANAGER => 4
  | .ADMIN => 5

/-- The string name of a role value, as Prisma exposes it at runtime. -/
def roleName : UserRole → String
  | .PENDING => "PENDING"
  | .READONLY => "READONLY"
  | .USER => "USER"
  | .STAFF => "STAFF"
  | .MANAGER => "MANAGER"
  | .ADMIN => "ADMIN"

/-- The `roleHierarchy` object literal inside `hasRole`
(`lib/api-helpers.ts`): `{ CUSTOMER: 0, ADMIN: 1, SUPER_ADMIN: 2 }`.
A JavaScript property lookup that misses yields `undefined`, modelled as
`none`. -/
def roleHierarchy : String → Option Nat
  | "CUSTOMER" => some 0
  | "ADMIN" => some 1
  | "SUPER_ADMIN" => some 2
  | _ => none

/-- `hasRole(userRole, requiredRole)` from `lib/api-helpers.ts`:
`roleHierarchy[userRole] >= roleHierarchy[requiredRole]`.  In JavaScript a
`>=` comparison in which either side is `undefined` evaluates to `false`
(NaN comparison), modelled by the catch-all branch. -/
def hasRole (userRole requiredRole : UserRole) : Bool :=
  match roleHierarchy (roleName userRole), roleHierarchy (roleName requiredRole) with
  | some a, some b => a ≥ b
  | _, _ => false

/-- `isAdminRole` from `helpers/admin-auth.ts`: `role === UserRole.ADMIN`. -/
def isAdminRole (role : UserRole) : Bool :=
  role = UserRole.ADMIN

/-- `isManagerRole` from `helpers/admin-auth.ts`:
`role === UserRole.MANAGER || isAdminRole(role)`. -/
def isManagerRole (role : UserRole) : Bool :=
  role = UserRole.MANAGER || isAdminRole role

/-- `isStaffRole` from `helpers/admin-auth.ts`:
`role === UserRole.STAFF || isManagerRole(role)`. -/
def isStaffRole (role : UserRole) : Bool :=
  role = UserRole.STAFF || isManagerRole role

/-! ## String primitives

The JavaScript string operations the source uses (`split`, `startsWith`,
`toLowerCase` on header names) are given executable character-list
implementations so that concrete runs reduce inside the kernel. -/

/-- JavaScript `s.split(sep)` for a one-character separator: split at every
occurrence; `''.split(sep)` is `['']`. -/
def splitOnChar (c : Char) : List Char → List (List Char)
  | [] => [[]]
  | x :: xs =>
    if x = c then [] :: splitOnChar c xs
    else
      match splitOnChar c xs with
      | s :: rest => (x :: s) :: rest
      | [] => [[x]]

/-- `String` wrapper for `splitOnChar`. -/
def strSplit (c : Char) (s : String) : List String :=
  (splitOnChar c s.data).map (fun l => ⟨l⟩)

/-- JavaScript `s.startsWith(pre)`. -/
def strStartsWith (s pre : String) : Bool :=
  pre.data.isPrefixOf s.data

/-- ASCII lower-casing of one character (HTTP header names are ASCII). -/
def asciiLower (c : Char) : Char :=
  if 'A' ≤ c && c ≤ 'Z' then Char.ofNat (c.toNat + 32) else c

/-- ASCII lower-casing of a string. -/
def lowerStr (s : String) : String :=
  ⟨s.data.map asciiLower⟩

/-- JavaScript string falsiness for an optional environment variable or
header value: `undefined`/`null` and the empty string are falsy. -/
def strFalsy : Option String → Bool
  | none => true
  | some s => s = ""

/-- JavaScript `a || b` on optional strings: `a` unless `a` is falsy. -/
def jsOr (a b : Option String) : Option String :=
  if strFalsy a then b else a

/-- An inbound HTTP request: its header list.  `Headers.get` of the fetch
API is case-insensitive, so lookups compare lower-cased names. -/
structure Request where
  headers : List (String × String)
deriving DecidableEq, Repr

/-- `request.headers.get(name)` (case-insensitive, per the fetch spec). -/
def getHeader (req : Request) (name : String) : Option String :=
  (req.headers.find? (fun p => lowerStr p.1 = lowerStr name)).map Prod.snd

/-- The process environment variables consumed by the gate and the
whitelist. -/
structure Env where
  nodeEnv : String
  hubApiKey : Option String
  websiteApiKey : Option String
  devApiKey : Option String
  apiDomainWhitelist : Option String
deriving DecidableEq, Repr

/-- `process.env.NODE_ENV === 'development' && !process.env.HUB_API_KEY`:
the development-mode skip guard at the top of `validateApiAccess`. -/
def devSkip (env : Env) : Bool :=
  env.nodeEnv = "development" && strFalsy env.hubApiKey

/-- A computed object key `[API_KEYS.X || '']`: the key string, or `''`
when the environment variable is unset. -/
def keyOf (v : Option String) : String :=
  match v with
  | none => ""
  | some s => s

/-- Route classes (`export type RouteType = 'internal' | 'external'`). -/
inductive RouteType where
  | internal
  | external
deriving DecidableEq, Repr

/-- The `ACCESS_LEVELS` object of `middleware/apiAuth.ts`, as a lookup.
The object literal is keyed by `[HUB_KEY||'']`, `[WEBSITE_KEY||'']`,
`[DEV_KEY||'']` in that order; when two computed keys collide the later
entry overwrites the earlier, so the lookup tries the later entries
first. -/
def accessLevels (env : Env) (k : String) : Option (List RouteType) :=
  if k = keyOf env.devApiKey then some [.internal, .external]
  else if k = keyOf env.websiteApiKey then some [.external]
  else if k = keyOf env.hubApiKey then some [.internal, .external]
  else none

/-- The `ALLOWED_ORIGINS` object of `middleware/apiAuth.ts`, as a lookup
(same computed-key overwrite order as `accessLevels`). -/
def allowedOriginsOf (env : Env) (k : String) : Option (List String) :=
  if k = keyOf env.devApiKey then some ["http://localhost:*"]
  else if k = keyOf env.websiteApiKey then
    some ["http://localhost:3001", "https://alohawaii.com", "https://www.alohawaii.com"]
  else if k = keyOf env.hubApiKey then
    some ["http://localhost:3000", "https://hub.alohawaii.com"]
  else none

/-- The presented API key:
`request.headers.get('X-API-Key') || request.headers.get('x-api-key')`,
then treated as missing when falsy (`if (!apiKey)`).  Both header reads are
the same case-insensitive lookup. -/
def presentedApiKey (req : Request) : Option String :=
  let v := jsOr (getHeader req "X-API-Key") (getHeader req "x-api-key")
  if strFalsy v then none else v

/-- The presented origin:
`request.headers.get('origin') || request.headers.get('referer')`, treated
as absent when falsy (the `if (origin && ...)` guard). -/
def effectiveOrigin (req : Request) : Option String :=
  let v := jsOr (getHeader req "origin") (getHeader req "referer")
  if strFalsy v then none else v

/-! ## Origin pattern matching

The source tests each allowed-origin pattern with
`if (allowedOrigin.includes('*')) { const pattern =
allowedOrigin.replace('*', '\\d+'); return new RegExp(pattern).test(origin); }
return origin.startsWith(allowedOrigin);`.

`String.prototype.replace` with a string argument replaces the first `'*'`
only, and `RegExp.prototype.test` is unanchored, so a wildcard pattern
matches when the origin CONTAINS, anywhere, the pre-`*` text followed by one
or more digits followed by the post-`*` text.  The non-`*` characters are
modelled as literal characters; this coincides with the JavaScript regex
semantics for the configuration's only wildcard pattern
(`"http://localhost:*"`), which contains no other regex metacharacter. -/

/-- Does `s` contain, starting at some position, `pre` followed by one or
more digits followed by `post`?  (The unanchored `pre\d+post` regex
test.) -/
def digitRunMatch (pre post s : List Char) : Bool :=
  (List.range (s.length + 1)).any fun i =>
    let r := s.drop i
    pre.isPrefixOf r &&
      (let a := r.drop pre.length
       (List.range a.length).any fun k =>
         ((a.take (k + 1)).all Char.isDigit) && post.isPrefixOf (a.drop (k + 1)))

/-- Split a pattern at its first `'*'`: the text before it and the text
after it (later `'*'` characters stay in the suffix, as
`replace('*', ...)` rewrites only the first); `none` when the pattern has
no `'*'` (`allowedOrigin.includes('*')` is false). -/
def splitFirstStar : List Char → Option (List Char × List Char)
  | [] => none
  | c :: cs =>
    if c = '*' then some ([], cs)
    else (splitFirstStar cs).map (fun q => (c :: q.1, q.2))

/-- One step of the `allowedOrigins.some(...)` predicate: does `origin`
match the single `allowedOrigin` pattern? -/
def originPatternMatches (origin pattern : String) : Bool :=
  match splitFirstStar pattern.data with
  | some (pre, post) => digitRunMatch pre post origin.data
  | none => strStartsWith origin pattern

/-! ## validateApiAccess -/

/-- The result object of `validateApiAccess`:
`{ isValid: boolean; error?: string; apiKey?: string }`. -/
structure VResult where
  isValid : Bool
  error : Option String
  apiKey : Option String
deriving DecidableEq, Repr

/-- Error message of check 1 (missing key). -/
def missingKeyMsg : String := "API key required. Please include X-API-Key header."

/-- Error message of check 2 (unknown key). -/
def invalidKeyMsg : String := "Invalid API key provided."

/-- Error message of check 3 (route class), interpolated with the route
type as in the source template string. -/
def routeClassMsg (routeType : RouteType) : String :=
  match routeType with
  | .internal => "API key does not have access to internal routes."
  | .external => "API key does not have access to external routes."

/-- Error message of check 4 (origin). -/
def originMsg : String := "Origin not allowed for this API key."

/-- `validateApiAccess(request, routeType)` from `middleware/apiAuth.ts`,
with the process environment passed explicitly. -/
def validateApiAccess (env : Env) (req : Request) (routeType : RouteType) : VResult :=
  if devSkip env then ⟨true, none, none⟩
  else
    match presentedApiKey req with
    | none => ⟨false, some missingKeyMsg, none⟩
    | some apiKey =>
      match accessLevels env apiKey with
      | none => ⟨false, some invalidKeyMsg, none⟩
      | some allowedRoutes =>
        if ¬ allowedRoutes.contains routeType then
          ⟨false, some (routeClassMsg routeType), none⟩
        else
          match effectiveOrigin req, allowedOriginsOf env apiKey with
          | some origin, some allowedOrigins =>
            if allowedOrigins.any (fun p => originPatternMatches origin p) then
              ⟨true, none, some apiKey⟩
            else if env.nodeEnv = "production" then
              ⟨false, some originMsg, none⟩
            else
              ⟨true, none, some apiKey⟩
          | _, _ => ⟨true, none, some apiKey⟩

/-! ## The middleware pipeline -/

/-- The session token's trusted claims as the middleware reads them
(`token.role as string`). -/
structure Token where
  role : String
deriving DecidableEq, Repr

/-- The decision the middleware returns for a request. -/
inductive GateDecision where
  /-- `NextResponse.next()`: the request proceeds to the route handler. -/
  | next
  /-- 401 `{success:false, error, code:'UNAUTHORIZED'}` from the API-key
  validation. -/
  | unauthorized (error : Option String)
  /-- 401 `{success:false, message:'Authentication required'}`. -/
  | authRequired
  /-- 403 `{success:false, message:'Admin access required'}`. -/
  | adminRequired
deriving DecidableEq, Repr

/-- `middleware(req)` from `src/middleware.ts`, with the environment, the
request path and the decoded session token (`getToken` result) passed
explicitly. -/
def middleware (env : Env) (pathname : String) (req : Request)
    (token : Option Token) : GateDecision :=
  if strStartsWith pathname "/api/auth" then .next
  else
    let apiStage : Option GateDecision :=
      if strStartsWith pathname "/api/external" || strStartsWith pathname "/api/internal" then
        let routeType : RouteType :=
          if strStartsWith pathname "/api/internal" then .internal else .external
        let apiValidation := validateApiAccess env req routeType
        if ¬ apiValidation.isValid then some (.unauthorized apiValidation.error)
        else none
      else none
    match apiStage with
    | some d => d
    | none =>
      if strStartsWith pathname "/api/internal" then
        match token with
        | none => .authRequired
        | some t =>
          if strStartsWith pathname "/api/internal/admin"
              && ¬ (["ADMIN", "SUPER_ADMIN"].contains t.role) then
            .adminRequired
          else .next
      else .next

/-! ## The persisted store

The Prisma store is modelled as in-memory lists with unique-key lookup.
Only the columns the embedded code reads or writes are modelled; `avatar`,
`domain` and `googleId` are columns written by the upsert variant of the
`signIn` callback (they are absent from the checked-in `schema.prisma`,
which has `image` instead).  Generated cuids are replaced by a
deterministic fresh id derived from the unique email (no claim concerns id
values). -/

/-- A row of the `whitelisted_domains` table. -/
structure WhitelistEntry where
  domain : String
  isActive : Bool
deriving DecidableEq, Repr

/-- A row of the `users` table. -/
structure UserRec where
  id : String
  email : String
  name : Option String
  image : Option String
  avatar : Option String
  domain : Option String
  googleId : Option String
  role : UserRole
  isActive : Bool
  lastLoginAt : Option Nat
deriving DecidableEq, Repr

/-- The persisted store: users and whitelisted domains. -/
structure Store where
  users : List UserRec
  whitelist : List WhitelistEntry
deriving DecidableEq, Repr

/-- `prisma.user.findUnique({ where: { email } })`. -/
def findUserByEmail (s : Store) (email : String) : Option UserRec :=
  s.users.find? (fun u => u.email = email)

/-- `prisma.user.update({ where: { email }, data: ... })`: rewrite the row
with that unique email. -/
def updateUserByEmail (s : Store) (email : String) (f : UserRec → UserRec) : Store :=
  { s with users := s.users.map (fun u => if u.email = email then f u else u) }

/-- `prisma.user.create({ data: ... })`. -/
def createUser (s : Store) (u : UserRec) : Store :=
  { s with users := s.users ++ [u] }

/-- Deterministic stand-in for the generated cuid of a created row. -/
def freshId (email : String) : String := "id-" ++ email

/-- A Prisma `update` datum: an `undefined` value leaves the column
unchanged, a present value overwrites it. -/
def prismaSet (newVal old : Option String) : Option String :=
  match newVal with
  | some v => some v
  | none => old

/-! ## Domain whitelist -/

/-- `process.env.API_DOMAIN_WHITELIST?.split(',') || []`. -/
def envWhitelist (env : Env) : List String :=
  match env.apiDomainWhitelist with
  | none => []
  | some s => strSplit ',' s

/-- `prisma.whitelistedDomain.findUnique({ where: { domain, isActive: true } })`. -/
def whitelistFindUniqueActive (s : Store) (domain : String) : Option WhitelistEntry :=
  s.whitelist.find? (fun w => w.domain = domain && w.isActive)

/-- `isDomainWhitelisted(domain)` from `lib/auth.ts`: the static
environment list is checked first and a hit returns immediately; otherwise
the store is queried for an active entry. -/
def isDomainWhitelisted (env : Env) (s : Store) (domain : String) : Bool :=
  if (envWhitelist env).contains domain then true
  else (whitelistFindUniqueActive s domain).isSome

/-- `isDomainWhitelisted`, instrumented: the second component records
whether the persisted store was queried (the env-list hit returns before
the `prisma` call). -/
def isDomainWhitelistedTr (env : Env) (s : Store) (domain : String) : Bool × Bool :=
  if (envWhitelist env).contains domain then (true, false)
  else ((whitelistFindUniqueActive s domain).isSome, true)

/-- `isEmailFromWhitelistedDomain(email)` from `lib/api-helpers.ts`,
instrumented: the second component records whether the store was queried.
The email is split on `'@'`; anything but exactly two parts returns
`false` before any store access; otherwise the store is queried for any
entry with that domain (this helper passes no `isActive` filter). -/
def isEmailFromWhitelistedDomainTr (s : Store) (email : String) : Bool × Bool :=
  match strSplit '@' email with
  | [_, domain] => ((s.whitelist.find? (fun w => w.domain = domain)).isSome, true)
  | _ => (false, false)

/-! ## The account lifecycle controller -/

/-- The verified identity the Google provider yields to the `signIn`
callback. -/
structure GoogleProfile where
  id : String
  email : String
  name : String
  picture : Option String
  hd : Option String
deriving DecidableEq, Repr

/-- `extractDomain(email)` from `lib/auth.ts`: `email.split('@')[1]` — the
segment after the FIRST `'@'`, or `undefined` when there is no `'@'`. -/
def extractDomain (email : String) : Option String :=
  (strSplit '@' email).get? 1

/-- Outcome of a NextAuth `signIn` callback run. -/
inductive SignInOutcome where
  /-- The callback returned `true`: the provider-level sign-in proceeds. -/
  | accepted
  /-- The callback returned `false`: the sign-in is rejected. -/
  | rejected
  /-- An exception escaped the callback (the Prisma client throws a
  validation error when the unique `domain` argument is `undefined`,
  outside any `try` block). -/
  | errored
deriving DecidableEq, Repr

/-- The `signIn` callback of the upsert variant of `lib/auth.ts`: after the
whitelist check it upserts the user — the update branch refreshes `name`,
`avatar`, `domain`, `lastLoginAt` and `googleId`, the create branch inserts
with `role: 'STAFF'`. -/
def signInUpsert (env : Env) (store : Store) (p : GoogleProfile) (now : Nat)
    (provider : String) : SignInOutcome × Store :=
  if provider ≠ "google" then (.accepted, store)
  else
    match jsOr p.hd (extractDomain p.email) with
    | none => (.errored, store)
    | some domain =>
      if ¬ isDomainWhitelisted env store domain then (.rejected, store)
      else
        match findUserByEmail store p.email with
        | some _ =>
          (.accepted, updateUserByEmail store p.email (fun u =>
            { u with name := some p.name,
                     avatar := prismaSet p.picture u.avatar,
                     domain := some domain,
                     lastLoginAt := some now,
                     googleId := some p.id }))
        | none =>
          (.accepted, createUser store
            { id := freshId p.email, email := p.email, name := some p.name,
              image := none, avatar := p.picture, domain := some domain,
              googleId := some p.id, role := .STAFF, isActive := true,
              lastLoginAt := some now })

/-- The `signIn` callback of the findUnique/create variant of
`lib/auth.ts`: after the whitelist check an existing user gets `name`,
`image` and `lastLoginAt` refreshed (no `isActive` check on this path);
a new user is created with `role: UserRole.PENDING`. -/
def signInCreate (env : Env) (store : Store) (p : GoogleProfile) (now : Nat)
    (provider : String) : SignInOutcome × Store :=
  if provider ≠ "google" then (.accepted, store)
  else
    match jsOr p.hd (extractDomain p.email) with
    | none => (.errored, store)
    | some domain =>
      if ¬ isDomainWhitelisted env store domain then (.rejected, store)
      else
        match findUserByEmail store p.email with
        | some _ =>
          (.accepted, updateUserByEmail store p.email (fun u =>
            { u with name := some p.name,
                     image := prismaSet p.picture u.image,
                     lastLoginAt := some now }))
        | none =>
          (.accepted, createUser store
            { id := freshId p.email, email := p.email, name := some p.name,
              image := p.picture, avatar := none, domain := none,
              googleId := none, role := .PENDING, isActive := true,
              lastLoginAt := some now })

/-- The JWT a session mints from: the claims the `jwt` callback writes. -/
structure JwtToken where
  sub : Option String
  role : Option UserRole
deriving DecidableEq, Repr

/-- The `jwt` callback of the findUnique/create variant of `lib/auth.ts`:
on first issuance (a `user` object is present) it re-reads the account and
copies `role` and `id` into the token only when the account exists and
`isActive` is true. -/
def jwtCallback (store : Store) (token : JwtToken) (signedInEmail : Option String) :
    JwtToken :=
  match signedInEmail with
  | none => token
  | some email =>
    match findUserByEmail store email with
    | some dbUser =>
      if dbUser.isActive then { token with role := some dbUser.role, sub := some dbUser.id }
      else token
    | none => token

/-- Typed outcome of the `users/auth` POST endpoint
(`src/app/api/internal/users/auth/route.ts`), one constructor per response
the handler returns. -/
inductive LifecycleOutcome where
  /-- 401 `{success:false, error: validation.error}` (API-key stage). -/
  | unauthorized
  /-- 400 `"Email is required"` (falsy `email` in the body). -/
  | emailRequired
  /-- 403 `"Domain not authorized for this system"`. -/
  | domainNotWhitelisted
  /-- 403 `"Account is deactivated. ..."`. -/
  | accountDeactivated
  /-- 403 `"Account is pending approval. ..."` (existing PENDING user;
  returned before any update). -/
  | accountPendingApproval
  /-- 403 `"Account created but requires administrator approval. ..."`
  (row created with role PENDING). -/
  | accountCreatedPendingApproval
  /-- 200 `{success:true, user}`. -/
  | success
deriving DecidableEq, Repr

/-- The parsed request body of the POST (`interface AuthRequest`); every
field may be absent at runtime. -/
structure AuthBody where
  email : Option String
  name : Option String
  image : Option String
  provider : Option String
deriving DecidableEq, Repr

/-- `prisma.whitelistedDomain.findFirst({ where: { domain: emailDomain,
isActive: true } })` as the POST route issues it: when `emailDomain` is
`undefined` (an email with no `'@'`), Prisma drops the undefined filter
and the query returns the first active entry of any domain. -/
def whitelistFindFirstActive (s : Store) (domain? : Option String) :
    Option WhitelistEntry :=
  match domain? with
  | some d => s.whitelist.find? (fun w => w.domain = d && w.isActive)
  | none => s.whitelist.find? (fun w => w.isActive)

/-- The `users/auth` POST route handler
(`src/app/api/internal/users/auth/route.ts`): API-key validation for the
internal route class, then `if (!email)` → 400; whitelist check via
`findFirst` on `email.split('@')[1]` (store only — no environment list);
an existing user is rejected when inactive, or when PENDING (both before
any write); otherwise `lastLoginAt` is updated, `name` only when truthy
and changed (`...(name && name !== existingUser.name && { name })`) and
`image` only when truthy (`...(image && { image })`); a missing user is
created with role PENDING, `name || null`, `image || null`,
`lastLoginAt = now`, and the 403 created-but-pending response returned. -/
def usersAuthPost (env : Env) (req : Request) (store : Store) (body : AuthBody)
    (now : Nat) : LifecycleOutcome × Store :=
  if ¬ (validateApiAccess env req .internal).isValid then (.unauthorized, store)
  else
    match body.email with
    | none => (.emailRequired, store)
    | some email =>
      if email = "" then (.emailRequired, store)
      else
        match whitelistFindFirstActive store (extractDomain email) with
        | none => (.domainNotWhitelisted, store)
        | some _ =>
          match findUserByEmail store email with
          | some existingUser =>
            if ¬ existingUser.isActive then (.accountDeactivated, store)
            else if existingUser.role = .PENDING then (.accountPendingApproval, store)
            else
              (.success, updateUserByEmail store email (fun v =>
                { v with lastLoginAt := some now,
                         name := match body.name with
                                 | some n =>
                                   if n ≠ "" ∧ some n ≠ existingUser.name then some n
                                   else v.name
                                 | none => v.name,
                         image := match body.image with
                                  | some i => if i ≠ "" then some i else v.image
                                  | none => v.image }))
          | none =>
            (.accountCreatedPendingApproval, createUser store
              { id := freshId email, email := email,
                name := if strFalsy body.name then none else body.name,
                image := if strFalsy body.image then none else body.image,
                avatar := none, domain := none, googleId := none,
                role := .PENDING, isActive := true, lastLoginAt := some now })

/-! ## Concrete fixtures -/

/-- A production environment with the three API keys configured. -/
def prodEnv : Env := ⟨"production", some "hub-key", some "web-key", some "dev-key", none⟩

/-- A development environment with no API keys configured (the
`validateApiAccess` skip guard fires). -/
def devNoKeyEnv : Env := ⟨"development", none, none, none, none⟩

/-- A production environment whose `API_DOMAIN_WHITELIST` is `"b"`. -/
def envListB : Env := ⟨"production", some "hub-key", some "web-key", some "dev-key", some "b"⟩

/-- A production environment whose `API_DOMAIN_WHITELIST` is `"corp.com"`. -/
def envCorp : Env := ⟨"production", some "hub-key", some "web-key", some "dev-key", some "corp.com"⟩

/-- A request with no headers at all. -/
def emptyReq : Request := ⟨[]⟩

/-- A request presenting the DEV key with an attacker-controlled origin that
embeds `http://localhost:3000` in its query string. -/
def reqEvil : Request :=
  ⟨[("x-api-key", "dev-key"), ("origin", "https://evil.example/?u=http://localhost:3000")]⟩

/-- A request presenting the HUB key and no Origin/Referer header. -/
def reqHubNoOrigin : Request := ⟨[("X-API-Key", "hub-key")]⟩

/-- A request presenting the HUB key with an origin matching no HUB
pattern. -/
def reqHubBadOrigin : Request :=
  ⟨[("X-API-Key", "hub-key"), ("origin", "https://stranger.example")]⟩

/-- The empty store. -/
def storeEmpty : Store := ⟨[], []⟩

/-- A store with an active whitelist entry for `x.com` and no users. -/
def storeXcom : Store := ⟨[], [⟨"x.com", true⟩]⟩

/-- A deactivated `ADMIN` account (`isActive = false`, last login at 5). -/
def bobUser : UserRec := ⟨"u1", "bob@x.com", some "Bob", none, none, none, none, .ADMIN, false, some 5⟩

/-- A store holding the deactivated account and its whitelisted domain. -/
def storeBob : Store := ⟨[bobUser], [⟨"x.com", true⟩]⟩

/-- The verified identity for the deactivated account's sign-in. -/
def bobProfile : GoogleProfile := ⟨"gb", "bob@x.com", "Bobby", some "pic.png", none⟩

/-- A first-time verified identity from the whitelisted domain. -/
def newProfile : GoogleProfile := ⟨"g9", "new@x.com", "New", none, none⟩

/-- An active `STAFF` account carrying `avatar`, `domain` and `googleId`
values. -/
def carolUser : UserRec :=
  ⟨"u2", "carol@x.com", some "Carol", none, some "old-avatar", some "old.org", some "g1", .STAFF, true, some 3⟩

/-- A store holding the active staff account and its whitelisted domain. -/
def storeCarol : Store := ⟨[carolUser], [⟨"x.com", true⟩]⟩

/-- A repeat sign-in identity for the staff account, with a new upstream
`googleId`. -/
def carolProfile : GoogleProfile := ⟨"g2", "carol@x.com", "Carol2", none, none⟩

/-- A verified identity whose email contains two `'@'` characters. -/
def multiProfile : GoogleProfile := ⟨"gm", "a@b@c.com", "Multi", none, none⟩

/-! ## Store lemmas (shared helpers) -/

/-- Looking up the updated row: mapping an email-preserving rewrite over
the table commutes with the unique-email lookup. -/
theorem find?_map_update (l : List UserRec) (email : String) (f : UserRec → UserRec)
    (hf : ∀ u, (f u).email = u.email) :
    (l.map (fun u => if u.email = email then f u else u)).find?
        (fun u => u.email = email)
      = (l.find? (fun u => u.email = email)).map f := by
  induction l with
  | nil => rfl
  | cons a l ih =>
    by_cases ha : a.email = email
    · rw [List.map_cons, if_pos ha]
      rw [List.find?_cons_of_pos _ (by simp [hf, ha]),
        List.find?_cons_of_pos _ (by simp [ha])]
      simp
    · rw [List.map_cons, if_neg ha]
      rw [List.find?_cons_of_neg _ (by simp [ha]),
        List.find?_cons_of_neg _ (by simp [ha]), ih]

/-- `findUserByEmail` after `updateUserByEmail` at the same email. -/
theorem findUser_update_self (s : Store) (email : String) (f : UserRec → UserRec)
    (hf : ∀ u, (f u).email = u.email) :
    findUserByEmail (updateUserByEmail s email f) email =
      (findUserByEmail s email).map f :=
  find?_map_update s.users email f hf

/-- `findUserByEmail` after `createUser` of a previously absent email. -/
theorem findUser_create_self (s : Store) (u : UserRec)
    (h : findUserByEmail s u.email = none) :
    findUserByEmail (createUser s u) u.email = some u := by
  unfold findUserByEmail createUser
  unfold findUserByEmail at h
  rw [show (s.users ++ [u]) = s.users ++ [u] from rfl]
  rw [List.find?_append, h]
  simp

/-! ## Branch lemmas for validateApiAccess (shared helpers) -/

/-- Under the development-mode skip guard, `validateApiAccess` validates
nothing. -/
theorem validate_skip_aux (env : Env) (req : Request) (rt : RouteType)
    (hs : devSkip env = true) :
    validateApiAccess env req rt = ⟨true, none, none⟩ := by
  simp [validateApiAccess, hs]

/-- With entitlement granted and no presented origin, `validateApiAccess`
accepts (the origin check is skipped). -/
theorem validate_noorigin_aux (env : Env) (req : Request) (rt : RouteType)
    (k : String) (routes : List RouteType)
    (hskip : devSkip env = false) (hkey : presentedApiKey req = some k)
    (hacc : accessLevels env k = some routes) (hroute : routes.contains rt = true)
    (horig : effectiveOrigin req = none) :
    validateApiAccess env req rt = ⟨true, none, some k⟩ := by
  have hroute' : rt ∈ routes := by simpa using hroute
  simp [validateApiAccess, hskip, hkey, hacc, hroute', horig]

/-- With the skip guard off and no presented key, `validateApiAccess`
denies with the missing-key error (check 1). -/
theorem validate_missing_aux (env : Env) (req : Request) (rt : RouteType)
    (hskip : devSkip env = false) (hkey : presentedApiKey req = none) :
    validateApiAccess env req rt = ⟨false, some missingKeyMsg, none⟩ := by
  simp [validateApiAccess, hskip, hkey]

/-- With a presented key unknown to `ACCESS_LEVELS`, `validateApiAccess`
denies with the invalid-key error (check 2). -/
theorem validate_invalid_aux (env : Env) (req : Request) (rt : RouteType) (k : String)
    (hskip : devSkip env = false) (hkey : presentedApiKey req = some k)
    (hacc : accessLevels env k = none) :
    validateApiAccess env req rt = ⟨false, some invalidKeyMsg, none⟩ := by
  simp [validateApiAccess, hskip, hkey, hacc]

/-- With a known key not entitled to the route class, `validateApiAccess`
denies with the route-class error (check 3). -/
theorem validate_routeclass_aux (env : Env) (req : Request) (rt : RouteType)
    (k : String) (routes : List RouteType)
    (hskip : devSkip env = false) (hkey : presentedApiKey req = some k)
    (hacc : accessLevels env k = some routes) (hroute : routes.contains rt = false) :
    validateApiAccess env req rt = ⟨false, some (routeClassMsg rt), none⟩ := by
  have hroute' : rt ∉ routes := by simpa using hroute
  simp [validateApiAccess, hskip, hkey, hacc, hroute']

/-- With entitlement granted, a presented origin matching no pattern, and
`NODE_ENV=production`, `validateApiAccess` denies with the origin error
(check 4, hard mode). -/
theorem validate_origin_denied_aux (env : Env) (req : Request) (rt : RouteType)
    (k : String) (routes : List RouteType) (o : String) (pats : List String)
    (hskip : devSkip env = false) (hkey : presentedApiKey req = some k)
    (hacc : accessLevels env k = some routes) (hroute : routes.contains rt = true)
    (horig : effectiveOrigin req = some o) (hpats : allowedOriginsOf env k = some pats)
    (hmatch : pats.any (fun p => originPatternMatches o p) = false)
    (hprod : env.nodeEnv = "production") :
    validateApiAccess env req rt = ⟨false, some originMsg, none⟩ := by
  have hroute' : rt ∈ routes := by simpa using hroute
  have hmatch' : ¬ ∃ x ∈ pats, originPatternMatches o x = true := by simpa using hmatch
  simp [validateApiAccess, hskip, hkey, hacc, hroute', horig, hpats, hmatch', hprod]

/-- Same mismatch outside production: warn-only, the request is declared
valid (check 4, soft mode). -/
theorem validate_origin_warn_aux (env : Env) (req : Request) (rt : RouteType)
    (k : String) (routes : List RouteType) (o : String) (pats : List String)
    (hskip : devSkip env = false) (hkey : presentedApiKey req = some k)
    (hacc : accessLevels env k = some routes) (hroute : routes.contains rt = true)
    (horig : effectiveOrigin req = some o) (hpats : allowedOriginsOf env k = some pats)
    (hmatch : pats.any (fun p => originPatternMatches o p) = false)
    (hprod : env.nodeEnv ≠ "production") :
    validateApiAccess env req rt = ⟨true, none, some k⟩ := by
  have hroute' : rt ∈ routes := by simpa using hroute
  have hmatch' : ¬ ∃ x ∈ pats, originPatternMatches o x = true := by simpa using hmatch
  simp [validateApiAccess, hskip, hkey, hacc, hroute', horig, hpats, hmatch', hprod]

/-! ## Claim C2 -/

/-- C2 (code bug): the generic role check `hasRole` does NOT allow exactly
when `rank(sessionRole) ≥ rank(requiredRole)`: its lookup table still names
the retired roles `CUSTOMER`/`SUPER_ADMIN` and maps none of the current
enum values except `ADMIN`, so `hasRole ADMIN STAFF` (and even
`hasRole STAFF STAFF`) denies although the rank ordering requires allowing.
The intended rank semantics is exactly what the `isStaffRole`/
`isManagerRole`/`isAdminRole` helpers implement, witnessing that the
claim's ordering is the codebase's own contract and `hasRole` the slip. -/
theorem hasRole_stale_hierarchy :
    hasRole .ADMIN .STAFF = false ∧
    hasRole .STAFF .STAFF = false ∧
    roleRank .STAFF ≤ roleRank .ADMIN ∧
    (∀ r : UserRole, isStaffRole r = decide (roleRank .STAFF ≤ roleRank r)) ∧
    (∀ r : UserRole, isManagerRole r = decide (roleRank .MANAGER ≤ roleRank r)) ∧
    (∀ r : UserRole, isAdminRole r = decide (roleRank .ADMIN ≤ roleRank r)) := by
  refine ⟨rfl, rfl, by decide, ?_, ?_, ?_⟩ <;> intro r <;> cases r <;> rfl

/-! ## Claim C10 -/

/-- C10: a wildcard allowed-origin pattern is tested as an unanchored
regular expression, so any origin that CONTAINS anywhere a substring
`pre ++ digits ++ post` (the pattern with `'*'` replaced by one or more
digits) is accepted — not only prefixes; non-wildcard patterns are matched
by `startsWith`.  Concretely, an origin embedding `http://localhost:3000`
inside a different host's URL passes the DEV credential's origin check even
in production. -/
theorem wildcard_origin_substring_match :
    (∀ pre post s t u : List Char, t ≠ [] → (∀ c ∈ t, c.isDigit) →
      digitRunMatch pre post (s ++ pre ++ t ++ post ++ u) = true) ∧
    strStartsWith "https://evil.example/?u=http://localhost:3000" "http://localhost:" = false ∧
    originPatternMatches "https://evil.example/?u=http://localhost:3000" "http://localhost:*" = true ∧
    originPatternMatches "xhttp://localhost:99" "http://localhost:*" = true ∧
    originPatternMatches "http://localhost:" "http://localhost:*" = false ∧
    originPatternMatches "http://localhost:3000/page" "http://localhost:3000" = true ∧
    originPatternMatches "xhttp://localhost:3000" "http://localhost:3000" = false ∧
    validateApiAccess prodEnv reqEvil .external = ⟨true, none, some "dev-key"⟩ := by
  refine ⟨?_, ?_, ?_, ?_, ?_, ?_, ?_, ?_⟩
  · intro pre post s t u ht hd
    unfold digitRunMatch
    rw [List.any_eq_true]
    refine ⟨s.length, ?_, ?_⟩
    · rw [List.mem_range]
      simp [List.length_append]
      omega
    · have hre : (s ++ pre ++ t ++ post ++ u).drop s.length = pre ++ (t ++ (post ++ u)) := by
        have hassoc : s ++ pre ++ t ++ post ++ u = s ++ (pre ++ (t ++ (post ++ u))) := by
          simp [List.append_assoc]
        rw [hassoc, List.drop_left]
      simp only [hre]
      rw [Bool.and_eq_true]
      constructor
      · rw [ List.isPrefixOf_iff_prefix]
        exact List.prefix_append _ _
      · rw [List.drop_left]
        rw [List.any_eq_true]
        have htl : 1 ≤ t.length := by
          cases t with
          | nil => exact absurd rfl ht
          | cons a l => simp
        refine ⟨t.length - 1, ?_, ?_⟩
        · rw [List.mem_range]
          simp [List.length_append]
          omega
        · rw [Bool.and_eq_true]
          have hk1 : t.length - 1 + 1 = t.length := by omega
          constructor
          · rw [hk1]
            rw [show (t ++ (post ++ u)).take t.length = t from List.take_left t (post ++ u)]
            rw [List.all_eq_true]
            intro c hc
            exact hd c hc
          · rw [hk1, List.drop_left, List.isPrefixOf_iff_prefix]
            exact List.prefix_append _ _
  all_goals decide

/-- C10 witness: the universal conjunct applied to a concrete embedded
match. -/
theorem wildcard_origin_substring_match_witness :
    digitRunMatch "http://localhost:".data [] ("x=".data ++ "http://localhost:".data ++ ['3', '0'] ++ [] ++ "&y".data) = true :=
  wildcard_origin_substring_match.1 "http://localhost:".data [] "x=".data ['3', '0'] "&y".data
    (by decide) (by decide)

/-! ## Claim C1, counterexample -/

/-- C1 (counterexample): the `signIn` callback (findUnique/create variant)
does not reject a deactivated account — it returns `true` and rewrites
`name`, `image` and `lastLoginAt` on the frozen row. -/
theorem signIn_updates_deactivated_account :
    bobUser.isActive = false ∧
    bobUser.lastLoginAt = some 5 ∧
    signInCreate prodEnv storeBob bobProfile 99 "google" =
      (.accepted,
       ⟨[⟨"u1", "bob@x.com", some "Bobby", some "pic.png", none, none, none, .ADMIN, false, some 99⟩],
        [⟨"x.com", true⟩]⟩) := by decide

/-! ## Claim C3, counterexample -/

/-- C3 (counterexample): the upsert variant of the `signIn` callback
creates a first-time account from a whitelisted domain with role `STAFF`,
not `Pending`. -/
theorem signInUpsert_creates_staff_role :
    findUserByEmail storeXcom "new@x.com" = none ∧
    ((signInUpsert prodEnv storeXcom newProfile 7 "google").2.users.map
      (fun u => (u.email, u.role))) = [("new@x.com", UserRole.STAFF)] := by decide

/-! ## Claim C4, counterexample -/

/-- C4 (counterexample): with `NODE_ENV=development` and `HUB_API_KEY`
unset, a request missing every credential is allowed through instead of
being denied with the missing-credential reason, so the claimed
first-failing-check reporting does not hold for every request. -/
theorem devskip_breaks_check_order :
    presentedApiKey emptyReq = none ∧
    middleware devNoKeyEnv "/api/external/health" emptyReq none = .next := by decide

/-! ## Claim C5, counterexample -/

/-- C5 (counterexample): a request with no `X-API-Key` header is NOT denied
when `NODE_ENV=development` and `HUB_API_KEY` is unset — validation is
skipped and the request declared valid, contradicting "regardless of the
process environment". -/
theorem devskip_allows_missing_key :
    presentedApiKey emptyReq = none ∧
    validateApiAccess devNoKeyEnv emptyReq .external = ⟨true, none, none⟩ ∧
    validateApiAccess devNoKeyEnv emptyReq .internal = ⟨true, none, none⟩ := by decide

/-! ## Claim C6, counterexample -/

/-- C6 (counterexample): when the static environment list contains the
domain, `isDomainWhitelisted` returns before the store query (the
instrumented run records no store access), so the two sources are not both
consulted on every decision. -/
theorem env_hit_skips_store :
    isDomainWhitelistedTr envCorp storeEmpty "corp.com" = (true, false) ∧
    isDomainWhitelisted envCorp storeEmpty "corp.com" = true := by decide

/-! ## Claim C7, counterexample -/

/-- C7 (counterexample): an email with two `'@'` characters is not
rejected by the sign-in: `extractDomain` silently takes the segment
between the first and second `'@'`, the whitelist is consulted with it,
and the account store is then read and written. -/
theorem multi_at_email_not_rejected :
    (strSplit '@' "a@b@c.com").length = 3 ∧
    extractDomain "a@b@c.com" = some "b" ∧
    (signInCreate envListB storeEmpty multiProfile 7 "google").1 = .accepted ∧
    (findUserByEmail (signInCreate envListB storeEmpty multiProfile 7 "google").2
      "a@b@c.com").isSome = true := by decide

/-! ## Claim C5, amended theorem -/

/-- C5 (amended): for every request whose headers contain no `X-API-Key`
(in any letter case — header lookup is case-insensitive), the gate denies
with the missing-credential reason, regardless of other headers and of the
route class, PROVIDED the development-mode skip guard
(`NODE_ENV=development` with `HUB_API_KEY` unset) is off; under that guard
validation is skipped entirely. -/
theorem missing_key_denied (env : Env) (req : Request) (rt : RouteType)
    (hskip : devSkip env = false) (hkey : presentedApiKey req = none) :
    validateApiAccess env req rt = ⟨false, some missingKeyMsg, none⟩ :=
  validate_missing_aux env req rt hskip hkey

/-- C5 witness: a production environment and a keyless request. -/
theorem missing_key_denied_witness :
    validateApiAccess prodEnv emptyReq .external = ⟨false, some missingKeyMsg, none⟩ :=
  missing_key_denied prodEnv emptyReq .external (by decide) (by decide)

/-! ## Claim C8 -/

/-- C8: (1) when both `Origin` and `Referer` headers are absent the origin
check never produces a denial (no run of `validateApiAccess` returns the
origin error); (2) when the presented origin matches none of the resolved
credential's patterns, the gate denies (with the origin error) exactly in
`NODE_ENV=production`, and in any other mode it allows (warn-only). -/
theorem origin_missing_or_mismatch_policy (env : Env) (req : Request) (rt : RouteType) :
    (getHeader req "origin" = none → getHeader req "referer" = none →
      (validateApiAccess env req rt).error ≠ some originMsg) ∧
    (∀ k routes o pats,
      devSkip env = false → presentedApiKey req = some k →
      accessLevels env k = some routes → routes.contains rt = true →
      effectiveOrigin req = some o → allowedOriginsOf env k = some pats →
      pats.any (fun p => originPatternMatches o p) = false →
      ((validateApiAccess env req rt).isValid = false ↔ env.nodeEnv = "production") ∧
      (env.nodeEnv = "production" →
        validateApiAccess env req rt = ⟨false, some originMsg, none⟩) ∧
      (env.nodeEnv ≠ "production" →
        validateApiAccess env req rt = ⟨true, none, some k⟩)) := by
  constructor
  · intro hO hR
    have ho : effectiveOrigin req = none := by
      simp [effectiveOrigin, jsOr, hO, hR, strFalsy]
    by_cases hs : devSkip env = true
    · rw [validate_skip_aux env req rt hs]
      decide
    · have hs' : devSkip env = false := by simpa using hs
      cases hk : presentedApiKey req with
      | none =>
        rw [validate_missing_aux env req rt hs' hk]
        decide
      | some k =>
        cases ha : accessLevels env k with
        | none =>
          rw [validate_invalid_aux env req rt k hs' hk ha]
          decide
        | some routes =>
          by_cases hr : routes.contains rt = true
          · rw [validate_noorigin_aux env req rt k routes hs' hk ha hr ho]
            simp
          · have hr0 : routes.contains rt = false := by simpa using hr
            rw [validate_routeclass_aux env req rt k routes hs' hk ha hr0]
            cases rt <;> decide
  · intro k routes o pats hskip hkey hacc hroute horig hpats hmatch
    by_cases hprod : env.nodeEnv = "production"
    · rw [validate_origin_denied_aux env req rt k routes o pats hskip hkey hacc hroute
        horig hpats hmatch hprod]
      exact ⟨by simp [hprod], fun _ => rfl, fun hc => absurd hprod hc⟩
    · rw [validate_origin_warn_aux env req rt k routes o pats hskip hkey hacc hroute
        horig hpats hmatch hprod]
      exact ⟨by simp [hprod], fun hc => absurd hc hprod, fun _ => rfl⟩

/-- C8 witness: the HUB credential with no origin header, and with a
mismatching origin in production. -/
theorem origin_missing_or_mismatch_policy_witness :
    ((validateApiAccess prodEnv reqHubNoOrigin .external).error ≠ some originMsg) ∧
    validateApiAccess prodEnv reqHubBadOrigin .external = ⟨false, some originMsg, none⟩ :=
  ⟨(origin_missing_or_mismatch_policy prodEnv reqHubNoOrigin .external).1
      (by decide) (by decide),
   (((origin_missing_or_mismatch_policy prodEnv reqHubBadOrigin .external).2
      "hub-key" [.internal, .external] "https://stranger.example"
      ["http://localhost:3000", "https://hub.alohawaii.com"]
      (by decide) (by decide) (by decide) (by decide) (by decide) (by decide)
      (by decide)).2.1 rfl)⟩

/-! ## Claim C4, amended theorem -/

/-- C4 (amended): outside the development-mode skip guard, the gate
evaluates its checks in exactly the claimed order — API key presence,
credential validity, route-class entitlement, origin (hard only in
production), then for Internal routes session validity, then role — and
the decision returned is that of the earliest failing check; under the
skip guard the credential/route/origin checks are bypassed entirely. -/
theorem gate_check_order (env : Env) (pathname : String) (req : Request)
    (token : Option Token)
    (hskip : devSkip env = false)
    (hauth : strStartsWith pathname "/api/auth" = false)
    (hapi : (strStartsWith pathname "/api/external" ||
             strStartsWith pathname "/api/internal") = true) :
    (presentedApiKey req = none →
      middleware env pathname req token = .unauthorized (some missingKeyMsg)) ∧
    (∀ k, presentedApiKey req = some k → accessLevels env k = none →
      middleware env pathname req token = .unauthorized (some invalidKeyMsg)) ∧
    (∀ k routes, presentedApiKey req = some k → accessLevels env k = some routes →
      routes.contains (if strStartsWith pathname "/api/internal"
        then RouteType.internal else RouteType.external) = false →
      middleware env pathname req token =
        .unauthorized (some (routeClassMsg (if strStartsWith pathname "/api/internal"
          then RouteType.internal else RouteType.external)))) ∧
    (∀ k routes o pats, presentedApiKey req = some k → accessLevels env k = some routes →
      routes.contains (if strStartsWith pathname "/api/internal"
        then RouteType.internal else RouteType.external) = true →
      effectiveOrigin req = some o → allowedOriginsOf env k = some pats →
      pats.any (fun p => originPatternMatches o p) = false →
      env.nodeEnv = "production" →
      middleware env pathname req token = .unauthorized (some originMsg)) ∧
    ((validateApiAccess env req (if strStartsWith pathname "/api/internal"
        then RouteType.internal else RouteType.external)).isValid = true →
      strStartsWith pathname "/api/internal" = true → token = none →
      middleware env pathname req token = .authRequired) ∧
    (∀ t, (validateApiAccess env req (if strStartsWith pathname "/api/internal"
        then RouteType.internal else RouteType.external)).isValid = true →
      strStartsWith pathname "/api/internal" = true → token = some t →
      strStartsWith pathname "/api/internal/admin" = true →
      (["ADMIN", "SUPER_ADMIN"].contains t.role) = false →
      middleware env pathname req token = .adminRequired) := by
  refine ⟨?_, ?_, ?_, ?_, ?_, ?_⟩
  · intro hkey
    have hv := validate_missing_aux env req (if strStartsWith pathname "/api/internal"
      then RouteType.internal else RouteType.external) hskip hkey
    simp [middleware, hauth, hapi, hv]
  · intro k hkey hacc
    have hv := validate_invalid_aux env req (if strStartsWith pathname "/api/internal"
      then RouteType.internal else RouteType.external) k hskip hkey hacc
    simp [middleware, hauth, hapi, hv]
  · intro k routes hkey hacc hroute
    have hv := validate_routeclass_aux env req (if strStartsWith pathname "/api/internal"
      then RouteType.internal else RouteType.external) k routes hskip hkey hacc hroute
    simp [middleware, hauth, hapi, hv]
  · intro k routes o pats hkey hacc hroute horig hpats hmatch hprod
    have hv := validate_origin_denied_aux env req (if strStartsWith pathname "/api/internal"
      then RouteType.internal else RouteType.external) k routes o pats hskip hkey hacc
      hroute horig hpats hmatch hprod
    simp [middleware, hauth, hapi, hv]
  · intro hvalid hint htok
    simp only [hint, if_true] at hvalid
    simp [middleware, hauth, hapi, hvalid, hint, htok]
  · intro t hvalid hint htok hadmin hrole
    simp only [hint, if_true] at hvalid
    have hr' : t.role ≠ "ADMIN" ∧ t.role ≠ "SUPER_ADMIN" := by simpa using hrole
    simp [middleware, hauth, hapi, hvalid, hint, htok, hadmin, hr'.1, hr'.2]

/-- C4 witness: in production, a request that simultaneously lacks the API
key, has a disallowed origin, no session and a bad role is reported with
the earliest failure (missing credential); and the session check fires for
an entitled credential on an internal route. -/
theorem gate_check_order_witness :
    middleware prodEnv "/api/internal/users/me" ⟨[("origin", "https://stranger.example")]⟩
      none = .unauthorized (some missingKeyMsg) ∧
    middleware prodEnv "/api/internal/users/me" reqHubNoOrigin none = .authRequired :=
  ⟨(gate_check_order prodEnv "/api/internal/users/me"
      ⟨[("origin", "https://stranger.example")]⟩ none
      (by decide) (by decide) (by decide)).1 (by decide),
   (gate_check_order prodEnv "/api/internal/users/me" reqHubNoOrigin none
      (by decide) (by decide) (by decide)).2.2.2.2.1 (by decide) (by decide) rfl⟩

/-! ## Claim C9, counterexample -/

/-- C9 (counterexample): on a successful repeat sign-in the upsert variant
of the `signIn` callback rewrites `googleId` and `domain` as well — fields
that are neither `lastLoginAt` nor display fields (role is still
untouched). -/
theorem upsert_modifies_googleId_and_domain :
    carolUser.googleId = some "g1" ∧
    carolUser.domain = some "old.org" ∧
    (findUserByEmail (signInUpsert prodEnv storeCarol carolProfile 9 "google").2
      "carol@x.com").map (fun u => (u.googleId, u.domain, u.role)) =
      some (some "g2", some "x.com", UserRole.STAFF) := by decide

/-! ## Claim C1, amended theorem -/

/-- C1 (amended): for a sign-in whose account exists with `active=false`,
the `users/auth` POST endpoint rejects (`AccountDeactivated`) and leaves
the store unchanged, but the NextAuth `signIn` callback does not consult
`active`: it accepts the sign-in and rewrites `name`, `image` and
`lastLoginAt` (role and `isActive` untouched); deactivation is enforced
only at token issuance, where the `jwt` callback withholds the role and
subject claims. -/
theorem deactivated_account_handling (env : Env) (req : Request) (store : Store)
    (p : GoogleProfile) (body : AuthBody) (now : Nat) (u : UserRec) (d : String)
    (w : WhitelistEntry)
    (hv : (validateApiAccess env req .internal).isValid = true)
    (hmail : body.email = some p.email)
    (hne : p.email ≠ "")
    (hwf : whitelistFindFirstActive store (extractDomain p.email) = some w)
    (hu : findUserByEmail store p.email = some u)
    (hia : u.isActive = false)
    (hdom : jsOr p.hd (extractDomain p.email) = some d)
    (hw : isDomainWhitelisted env store d = true) :
    usersAuthPost env req store body now = (.accountDeactivated, store) ∧
    (signInCreate env store p now "google").1 = .accepted ∧
    findUserByEmail (signInCreate env store p now "google").2 p.email =
      some { u with name := some p.name, image := prismaSet p.picture u.image,
                    lastLoginAt := some now } ∧
    jwtCallback store ⟨none, none⟩ (some p.email) = ⟨none, none⟩ := by
  refine ⟨?_, ?_, ?_, ?_⟩
  · simp [usersAuthPost, hv, hmail, hne, hwf, hu, hia]
  · simp [signInCreate, hdom, hw, hu]
  · simp [signInCreate, hdom, hw, hu]
    rw [findUser_update_self, hu]
    all_goals first | rfl | (intro v; rfl)
  · simp [jwtCallback, hu, hia]

/-- C1 witness: the deactivated admin fixture, signed in through the HUB
credential. -/
theorem deactivated_account_handling_witness :
    usersAuthPost prodEnv reqHubNoOrigin storeBob
      ⟨some "bob@x.com", some "Bobby", some "pic.png", some "google"⟩ 99 =
      (.accountDeactivated, storeBob) ∧
    (signInCreate prodEnv storeBob bobProfile 99 "google").1 = .accepted ∧
    findUserByEmail (signInCreate prodEnv storeBob bobProfile 99 "google").2 "bob@x.com" =
      some { bobUser with name := some "Bobby",
                          image := prismaSet (some "pic.png") bobUser.image,
                          lastLoginAt := some 99 } ∧
    jwtCallback storeBob ⟨none, none⟩ (some "bob@x.com") = ⟨none, none⟩ :=
  deactivated_account_handling prodEnv reqHubNoOrigin storeBob bobProfile
    ⟨some "bob@x.com", some "Bobby", some "pic.png", some "google"⟩ 99 bobUser
    "x.com" ⟨"x.com", true⟩ (by decide) (by decide) (by decide) (by decide)
    (by decide) (by decide) (by decide) (by decide)

/-! ## Claim C3, amended theorem -/

/-- C3 (amended): a first-time verified identity from a whitelisted domain
is created with role `Pending`, `active = true` and `lastLoginAt = now` by
the findUnique/create `signIn` variant and by the `users/auth` POST
endpoint; the upsert `signIn` variant instead creates the account with
role `STAFF` (its commented default for whitelisted-domain users). -/
theorem first_signin_creates_pending (env : Env) (req : Request) (store : Store)
    (p : GoogleProfile) (body : AuthBody) (now : Nat) (d : String)
    (w : WhitelistEntry)
    (hnew : findUserByEmail store p.email = none)
    (hdom : jsOr p.hd (extractDomain p.email) = some d)
    (hw : isDomainWhitelisted env store d = true)
    (hv : (validateApiAccess env req .internal).isValid = true)
    (hmail : body.email = some p.email)
    (hne : p.email ≠ "")
    (hwf : whitelistFindFirstActive store (extractDomain p.email) = some w) :
    (signInCreate env store p now "google").1 = .accepted ∧
    findUserByEmail (signInCreate env store p now "google").2 p.email =
      some ⟨freshId p.email, p.email, some p.name, p.picture, none, none, none,
            .PENDING, true, some now⟩ ∧
    usersAuthPost env req store body now =
      (.accountCreatedPendingApproval, createUser store
        ⟨freshId p.email, p.email,
         (if strFalsy body.name then none else body.name),
         (if strFalsy body.image then none else body.image),
         none, none, none, .PENDING, true, some now⟩) ∧
    (signInUpsert env store p now "google").1 = .accepted ∧
    findUserByEmail (signInUpsert env store p now "google").2 p.email =
      some ⟨freshId p.email, p.email, some p.name, none, p.picture, some d,
            some p.id, .STAFF, true, some now⟩ := by
  refine ⟨?_, ?_, ?_, ?_, ?_⟩
  · simp [signInCreate, hdom, hw, hnew]
  · simp [signInCreate, hdom, hw, hnew]
    exact findUser_create_self store _ hnew
  · simp [usersAuthPost, hv, hmail, hne, hwf, hnew]
  · simp [signInUpsert, hdom, hw, hnew]
  · simp [signInUpsert, hdom, hw, hnew]
    exact findUser_create_self store _ hnew

/-- C3 witness: the fresh-email fixture on the whitelisted domain, signed
in through the HUB credential. -/
theorem first_signin_creates_pending_witness :
    (signInCreate prodEnv storeXcom newProfile 7 "google").1 = .accepted ∧
    findUserByEmail (signInCreate prodEnv storeXcom newProfile 7 "google").2 "new@x.com" =
      some ⟨"id-new@x.com", "new@x.com", some "New", none, none, none, none,
            .PENDING, true, some 7⟩ ∧
    usersAuthPost prodEnv reqHubNoOrigin storeXcom
      ⟨some "new@x.com", some "New", none, some "google"⟩ 7 =
      (.accountCreatedPendingApproval, createUser storeXcom
        ⟨"id-new@x.com", "new@x.com", some "New", none, none, none, none,
         .PENDING, true, some 7⟩) ∧
    (signInUpsert prodEnv storeXcom newProfile 7 "google").1 = .accepted ∧
    findUserByEmail (signInUpsert prodEnv storeXcom newProfile 7 "google").2 "new@x.com" =
      some ⟨"id-new@x.com", "new@x.com", some "New", none, none, some "x.com",
            some "g9", .STAFF, true, some 7⟩ :=
  first_signin_creates_pending prodEnv reqHubNoOrigin storeXcom newProfile
    ⟨some "new@x.com", some "New", none, some "google"⟩ 7 "x.com" ⟨"x.com", true⟩
    (by decide) (by decide) (by decide) (by decide) (by decide) (by decide)
    (by decide)

/-! ## Claim C9, amended theorem -/

/-- C9 (amended): on a successful repeat sign-in the findUnique/update
`signIn` variant modifies only `name`, `image` and `lastLoginAt`; the
upsert variant additionally refreshes `domain` and `googleId`; and no
lifecycle path — either `signIn` variant or any branch of the `users/auth`
POST endpoint — ever modifies the stored role after first creation. -/
theorem repeat_signin_frame (env : Env) (req : Request) (store : Store)
    (p : GoogleProfile) (body : AuthBody) (now : Nat) (u : UserRec) (d : String)
    (w : WhitelistEntry)
    (hu : findUserByEmail store p.email = some u)
    (hdom : jsOr p.hd (extractDomain p.email) = some d)
    (hw : isDomainWhitelisted env store d = true)
    (hv : (validateApiAccess env req .internal).isValid = true)
    (hmail : body.email = some p.email)
    (hne : p.email ≠ "")
    (hwf : whitelistFindFirstActive store (extractDomain p.email) = some w) :
    findUserByEmail (signInCreate env store p now "google").2 p.email =
      some { u with name := some p.name, image := prismaSet p.picture u.image,
                    lastLoginAt := some now } ∧
    findUserByEmail (signInUpsert env store p now "google").2 p.email =
      some { u with name := some p.name, avatar := prismaSet p.picture u.avatar,
                    domain := some d, googleId := some p.id,
                    lastLoginAt := some now } ∧
    (findUserByEmail (usersAuthPost env req store body now).2 p.email).map
      (fun v => v.role) = some u.role := by
  refine ⟨?_, ?_, ?_⟩
  · simp [signInCreate, hdom, hw, hu]
    rw [findUser_update_self, hu]
    all_goals first | rfl | (intro v; rfl)
  · simp [signInUpsert, hdom, hw, hu]
    rw [findUser_update_self, hu]
    all_goals first | rfl | (intro v; rfl)
  · simp only [usersAuthPost, hv, hmail, hne, hwf]
    by_cases hia : u.isActive = true
    · by_cases hp : u.role = .PENDING
      · simp [hv, hmail, hne, hwf, hu, hia, hp]
      · simp [hv, hmail, hne, hwf, hu, hia, hp]
        rw [findUser_update_self, hu]
        all_goals first | rfl | (intro v; rfl) | exact ⟨_, rfl, rfl⟩
    · have hia0 : u.isActive = false := by simpa using hia
      simp [hv, hmail, hne, hwf, hu, hia0]

/-- C9 witness: the active staff fixture, signed in through the HUB
credential. -/
theorem repeat_signin_frame_witness :
    findUserByEmail (signInCreate prodEnv storeCarol carolProfile 9 "google").2
      "carol@x.com" =
      some { carolUser with name := some "Carol2",
                            image := prismaSet none carolUser.image,
                            lastLoginAt := some 9 } ∧
    findUserByEmail (signInUpsert prodEnv storeCarol carolProfile 9 "google").2
      "carol@x.com" =
      some { carolUser with name := some "Carol2",
                            avatar := prismaSet none carolUser.avatar,
                            domain := some "x.com", googleId := some "g2",
                            lastLoginAt := some 9 } ∧
    (findUserByEmail (usersAuthPost prodEnv reqHubNoOrigin storeCarol
      ⟨some "carol@x.com", some "Carol2", none, some "google"⟩ 9).2
      "carol@x.com").map (fun v => v.role) = some carolUser.role :=
  repeat_signin_frame prodEnv reqHubNoOrigin storeCarol carolProfile
    ⟨some "carol@x.com", some "Carol2", none, some "google"⟩ 9 carolUser "x.com"
    ⟨"x.com", true⟩ (by decide) (by decide) (by decide) (by decide) (by decide)
    (by decide) (by decide)

/-! ## Claim C6, amended theorem -/

/-- C6 (amended): `isDomainWhitelisted` returns `true` exactly when the
domain is in the static environment allow-list OR an active
`WhitelistEntry` for it exists in the store (union semantics of the
result), but the store is consulted only when the environment list misses:
an environment hit returns before the store query. -/
theorem whitelist_union_result (env : Env) (s : Store) (d : String) :
    (isDomainWhitelisted env s d = true ↔
      d ∈ envWhitelist env ∨ ∃ w ∈ s.whitelist, w.domain = d ∧ w.isActive = true) ∧
    (isDomainWhitelistedTr env s d).1 = isDomainWhitelisted env s d ∧
    ((isDomainWhitelistedTr env s d).2 = true ↔ d ∉ envWhitelist env) := by
  by_cases hc : (envWhitelist env).contains d = true
  · have hm : d ∈ envWhitelist env := by simpa using hc
    simp [isDomainWhitelisted, isDomainWhitelistedTr, hc, hm]
  · have hm : d ∉ envWhitelist env := by simpa using hc
    have hc0 : (envWhitelist env).contains d = false := by simpa using hc
    simp [isDomainWhitelisted, isDomainWhitelistedTr, hc0, hm,
      whitelistFindUniqueActive, List.find?_isSome]

/-! ## Claim C7, amended theorem -/

/-- C7 (amended): domain extraction takes the segment after the FIRST
`'@'` (`"a.b+tag@sub.example.com"` yields `"sub.example.com"`, but
`"a@b@c.com"` yields `"b"` instead of being rejected); only the
`isEmailFromWhitelistedDomain` helper rejects an email without exactly one
`'@'` before any store access — the `signIn` callbacks do not. -/
theorem email_shape_gating :
    extractDomain "a.b+tag@sub.example.com" = some "sub.example.com" ∧
    extractDomain "a@b@c.com" = some "b" ∧
    (∀ (s : Store) (email : String), (strSplit '@' email).length ≠ 2 →
      isEmailFromWhitelistedDomainTr s email = (false, false)) := by
  refine ⟨by decide, by decide, ?_⟩
  intro s email h
  unfold isEmailFromWhitelistedDomainTr
  split
  · next loc dom heq =>
    exact absurd (by rw [heq]; rfl : (strSplit '@' email).length = 2) h
  · rfl

/-- C7 witness: a store-free rejection of an `'@'`-less email. -/
theorem email_shape_gating_witness :
    isEmailFromWhitelistedDomainTr storeEmpty "invalid-email" = (false, false) :=
  email_shape_gating.2.2 storeEmpty "invalid-email" (by decide)

end Aloha
